import Mathlib

/-!
Shallow embedding of `src/mcc/finite_scan_with_trigger.py` (repository
claposset/DataBox).

The script drives an MCC 118 DAQ HAT: `wait_for_trigger` busy-polls the scan
status until the device reports triggered or not-running, and
`read_and_display_data` repeatedly reads blocks of interleaved samples,
stopping on an overrun flag or once the running per-channel total reaches the
target.

The device is modelled as a deterministic environment:
 - a stream `ℕ → ScanStatus` giving the status returned by the `k`-th call to
   `hat.a_in_scan_status()`;
 - a stream `ℕ → ℕ → ℚ → ReadResult` giving the result of the `k`-th call to
   `hat.a_in_scan_read(request_size, timeout)` (the result may depend on the
   arguments of the call, so that the constants the loop passes are visible).

Both Python `while` loops are embedded as fuel-indexed recursions; running out
of fuel is reported as a distinct outcome, so "the loop never terminates" is
expressed as "for every fuel the outcome is `fuelExhausted`".

The Python expression `int(len(data) / num_channels)` (float true division truncated toward
zero) is modelled as natural floor division `len / num`, which coincides with
it for all list lengths representable exactly in a double.  Sample values are
carried as `Float` but never computed with: the loop only selects and prints
them.
-/

namespace FiniteScanWithTrigger

/-- Status snapshot returned by `hat.a_in_scan_status()`. -/
structure ScanStatus where
  running : Bool
  triggered : Bool

/-- Result returned by `hat.a_in_scan_read(...)`: interleaved channel-major
sample data plus the two overrun flags. -/
structure ReadResult where
  data : List Float
  hardware_overrun : Bool
  buffer_overrun : Bool

/-- Model of `wait_for_trigger` (lines 102-121): starting from
`is_running = True, is_triggered = False`, poll `hat.a_in_scan_status()` while
`is_running and not is_triggered`.  `statuses k` is the `k`-th poll result.
Returns `some n` when the loop exits with `statuses n` the decisive poll,
`none` when `fuel` polls were made without exiting. -/
def wait_for_trigger (statuses : ℕ → ScanStatus) : ℕ → ℕ → Option ℕ
  | 0, _ => none
  | fuel + 1, k =>
    let status := statuses k
    let is_running := status.running
    let is_triggered := status.triggered
    if is_running && !is_triggered then
      wait_for_trigger statuses fuel (k + 1)
    else
      some k

/-- Line 157, `samples_read_per_channel = int(len(read_result.data) /
num_channels)`, as natural floor division. -/
def samples_read_per_channel (read_result : ReadResult) (num_channels : ℕ) : ℕ :=
  read_result.data.length / num_channels

/-- The last interleaved sample group printed for a block (lines 164-169):
`read_result.data[index + i]` for `i = 0, ..., num_channels - 1` with
`index = samples_read_per_channel * num_channels - num_channels`.
Out-of-range indexing is totalised with a default; the safety claim shows the
default is never used under the guard of the loop. -/
def displayed_group (read_result : ReadResult) (num_channels : ℕ) : List Float :=
  let index := samples_read_per_channel read_result num_channels * num_channels
      - num_channels
  (List.range num_channels).map (fun i => read_result.data.getD (index + i) 0)

/-- Observable events of one run of the read loop, in order: each
`hat.a_in_scan_read` call with its arguments, each overrun message, each
`\r...` counters line, and each printed last-sample group. -/
inductive Event where
  | readCall (request_size : ℕ) (timeout_arg : ℚ)
  | overrunMsg (hardware : Bool)
  | statusLine (samples_read_per_channel total_samples_read : ℕ)
  | sampleGroup (values : List Float)

/-- How the read loop ended: normal exit of the `while`, `break` on one of the
overrun flags, or fuel ran out (the Python loop would still be running). -/
inductive Outcome where
  | normal
  | hardwareOverrun
  | bufferOverrun
  | fuelExhausted
deriving DecidableEq

/-- Model of `read_and_display_data` (lines 124-174).  `hat k rs t` is the result of
the `k`-th `hat.a_in_scan_read(rs, t)` call.  The loop body reads with the
fixed `read_request_size = 500` and `timeout = 5.0`, breaks on either overrun
flag, otherwise accumulates `samples_read_per_channel` into
`total_samples_read` and, when positive, prints the last sample group.
Returns the outcome, the final `total_samples_read`, and the event trace. -/
def read_and_display_data (hat : ℕ → ℕ → ℚ → ReadResult)
    (samples_per_channel num_channels : ℕ) :
    ℕ → ℕ → ℕ → Outcome × ℕ × List Event
  | 0, _, total_samples_read =>
    if samples_per_channel ≤ total_samples_read then
      (Outcome.normal, total_samples_read, [])
    else
      (Outcome.fuelExhausted, total_samples_read, [])
  | fuel + 1, k, total_samples_read =>
    if samples_per_channel ≤ total_samples_read then
      (Outcome.normal, total_samples_read, [])
    else
      let read_result := hat k 500 5
      if read_result.hardware_overrun then
        (Outcome.hardwareOverrun, total_samples_read,
          [Event.readCall 500 5, Event.overrunMsg true])
      else if read_result.buffer_overrun then
        (Outcome.bufferOverrun, total_samples_read,
          [Event.readCall 500 5, Event.overrunMsg false])
      else
        let s := samples_read_per_channel read_result num_channels
        let total' := total_samples_read + s
        let evs :=
          if 0 < s then
            [Event.readCall 500 5, Event.statusLine s total',
              Event.sampleGroup (displayed_group read_result num_channels)]
          else
            [Event.readCall 500 5, Event.statusLine s total']
        let rest := read_and_display_data hat samples_per_channel num_channels
            fuel (k + 1) total'
        (rest.1, rest.2.1, evs ++ rest.2.2)

/-- Whether an event is a `hat.a_in_scan_read` call. -/
def Event.isReadCall : Event → Bool
  | Event.readCall _ _ => true
  | _ => false

/-- Whether an event is a `\r...` counters line (one is printed per
successfully processed block). -/
def Event.isStatusLine : Event → Bool
  | Event.statusLine _ _ => true
  | _ => false

/-- Whether an event is a printed last-sample group (indexing into `data`). -/
def Event.isSampleGroup : Event → Bool
  | Event.sampleGroup _ => true
  | _ => false

/-- Number of `hat.a_in_scan_read` calls in a trace. -/
def readCount (trace : List Event) : ℕ :=
  trace.countP (fun e => e.isReadCall)

/-- Number of counters lines in a trace. -/
def displayCount (trace : List Event) : ℕ :=
  trace.countP (fun e => e.isStatusLine)

/-- Per-channel sample count contributed by the `j`-th read of the loop (which
always passes request size 500 and timeout 5.0). -/
def blockSamples (hat : ℕ → ℕ → ℚ → ReadResult) (num_channels j : ℕ) : ℕ :=
  samples_read_per_channel (hat j 500 5) num_channels

/-- Sum of the per-channel sample counts of reads `k, k+1, ..., k+n-1`. -/
def sumSamples (hat : ℕ → ℕ → ℚ → ReadResult) (num_channels k : ℕ) : ℕ → ℕ
  | 0 => 0
  | n + 1 => blockSamples hat num_channels k + sumSamples hat num_channels (k + 1) n

/-- Events emitted by one non-overrun iteration of the read loop that starts
with running total `total`. -/
def stepEvents (hat : ℕ → ℕ → ℚ → ReadResult) (num_channels k total : ℕ) :
    List Event :=
  let s := blockSamples hat num_channels k
  if 0 < s then
    [Event.readCall 500 5, Event.statusLine s (total + s),
      Event.sampleGroup (displayed_group (hat k 500 5) num_channels)]
  else
    [Event.readCall 500 5, Event.statusLine s (total + s)]

lemma read_loop_done (hat : ℕ → ℕ → ℚ → ReadResult)
    (spc num fuel k total : ℕ) (h : spc ≤ total) :
    read_and_display_data hat spc num fuel k total =
      (Outcome.normal, total, []) := by
  cases fuel <;> simp [read_and_display_data, h]

lemma read_loop_step (hat : ℕ → ℕ → ℚ → ReadResult)
    (spc num fuel k total : ℕ) (h : total < spc)
    (hhw : (hat k 500 5).hardware_overrun = false)
    (hbo : (hat k 500 5).buffer_overrun = false) :
    read_and_display_data hat spc num (fuel + 1) k total =
      ((read_and_display_data hat spc num fuel (k + 1)
          (total + blockSamples hat num k)).1,
        (read_and_display_data hat spc num fuel (k + 1)
          (total + blockSamples hat num k)).2.1,
        stepEvents hat num k total ++
          (read_and_display_data hat spc num fuel (k + 1)
            (total + blockSamples hat num k)).2.2) := by
  rw [read_and_display_data, if_neg (Nat.not_le.mpr h)]
  simp only [hhw, hbo, Bool.false_eq_true, if_false, stepEvents, blockSamples]

lemma readCount_stepEvents (hat : ℕ → ℕ → ℚ → ReadResult)
    (num k total : ℕ) : readCount (stepEvents hat num k total) = 1 := by
  by_cases h : 0 < blockSamples hat num k <;>
    simp [stepEvents, readCount, h, List.countP_cons, Event.isReadCall]

lemma displayCount_stepEvents (hat : ℕ → ℕ → ℚ → ReadResult)
    (num k total : ℕ) : displayCount (stepEvents hat num k total) = 1 := by
  by_cases h : 0 < blockSamples hat num k <;>
    simp [stepEvents, displayCount, h, List.countP_cons, Event.isStatusLine]

lemma read_loop_normal_run (hat : ℕ → ℕ → ℚ → ReadResult) (spc num : ℕ)
    (hno : ∀ j, (hat j 500 5).hardware_overrun = false ∧
      (hat j 500 5).buffer_overrun = false) :
    ∀ n k total fuel, n ≤ fuel →
      (∀ m, m < n → total + sumSamples hat num k m < spc) →
      spc ≤ total + sumSamples hat num k n →
      (read_and_display_data hat spc num fuel k total).1 = Outcome.normal ∧
      (read_and_display_data hat spc num fuel k total).2.1 =
        total + sumSamples hat num k n ∧
      readCount (read_and_display_data hat spc num fuel k total).2.2 = n ∧
      displayCount (read_and_display_data hat spc num fuel k total).2.2 = n := by
  intro n
  induction n with
  | zero =>
    intro k total fuel _ _ htarget
    simp only [sumSamples, Nat.add_zero] at htarget ⊢
    rw [read_loop_done hat spc num fuel k total htarget]
    simp [readCount, displayCount]
  | succ n ih =>
    intro k total fuel hfuel hmin htarget
    match fuel, hfuel with
    | fuel + 1, hfuel =>
      have hlt : total < spc := by
        have := hmin 0 (Nat.succ_pos n)
        simpa [sumSamples] using this
      rw [read_loop_step hat spc num fuel k total hlt (hno k).1 (hno k).2]
      have hshift : ∀ m, total + sumSamples hat num k (m + 1) =
          (total + blockSamples hat num k) + sumSamples hat num (k + 1) m := by
        intro m
        simp [sumSamples, Nat.add_assoc]
      have ih' := ih (k + 1) (total + blockSamples hat num k) fuel
        (Nat.le_of_succ_le_succ hfuel)
        (fun m hm => by rw [← hshift]; exact hmin (m + 1) (Nat.succ_lt_succ hm))
        (by rw [← hshift]; exact htarget)
      refine ⟨ih'.1, ?_, ?_, ?_⟩
      · rw [hshift]
        exact ih'.2.1
      · simp only [readCount, List.countP_append] at ih' ⊢
        rw [← readCount, readCount_stepEvents]
        omega
      · simp only [displayCount, List.countP_append] at ih' ⊢
        rw [← displayCount, displayCount_stepEvents]
        omega

lemma read_loop_normal_reaches (hat : ℕ → ℕ → ℚ → ReadResult) (spc num : ℕ) :
    ∀ fuel k total,
      (read_and_display_data hat spc num fuel k total).1 = Outcome.normal →
      spc ≤ (read_and_display_data hat spc num fuel k total).2.1 := by
  intro fuel
  induction fuel with
  | zero =>
    intro k total
    by_cases h : spc ≤ total <;> simp [read_and_display_data, h]
  | succ fuel ih =>
    intro k total
    by_cases h : spc ≤ total
    · simp [read_and_display_data, h]
    · rw [read_and_display_data, if_neg h]
      by_cases hhw : (hat k 500 5).hardware_overrun = true
      · simp [hhw]
      · rw [if_neg hhw]
        by_cases hbo : (hat k 500 5).buffer_overrun = true
        · simp [hbo]
        · rw [if_neg hbo]
          exact ih (k + 1) _

lemma wait_for_trigger_stops_at (statuses : ℕ → ScanStatus) :
    ∀ n k fuel, n < fuel →
      ((statuses (k + n)).triggered = true ∨ (statuses (k + n)).running = false) →
      (∀ m, m < n → (statuses (k + m)).running = true ∧
        (statuses (k + m)).triggered = false) →
      wait_for_trigger statuses fuel k = some (k + n) := by
  intro n
  induction n with
  | zero =>
    intro k fuel hfuel hdec _
    simp only [Nat.add_zero] at hdec ⊢
    match fuel, hfuel with
    | fuel + 1, _ =>
      simp only [wait_for_trigger]
      rcases hdec with h | h <;> simp [h]
  | succ n ih =>
    intro k fuel hfuel hdec hmin
    match fuel, hfuel with
    | fuel + 1, hfuel =>
      have hk := hmin 0 (Nat.succ_pos n)
      simp only [Nat.add_zero] at hk
      simp only [wait_for_trigger, hk.1, hk.2]
      have h1 : k + (n + 1) = (k + 1) + n := by omega
      rw [h1]
      exact ih (k + 1) fuel (Nat.lt_of_succ_lt_succ hfuel)
        (by rw [← h1]; exact hdec)
        (fun m hm => by
          have h2 : (k + 1) + m = k + (m + 1) := by omega
          rw [h2]
          exact hmin (m + 1) (Nat.succ_lt_succ hm))

lemma wait_for_trigger_no_stop (statuses : ℕ → ScanStatus)
    (h : ∀ m, (statuses m).running = true ∧ (statuses m).triggered = false) :
    ∀ fuel k, wait_for_trigger statuses fuel k = none := by
  intro fuel
  induction fuel with
  | zero => intro k; rfl
  | succ fuel ih =>
    intro k
    simp only [wait_for_trigger, (h k).1, (h k).2]
    simpa using ih (k + 1)

/-- C3: if the first `n` polls keep the loop going (`running = true`,
`triggered = false`) and poll `n` has `triggered = true` — regardless of its
`running` value — or has `running = false`, then `wait_for_trigger` returns at
exactly poll `n` (given enough fuel to reach it). -/
theorem wait_for_trigger_returns_on_trigger (statuses : ℕ → ScanStatus) (n : ℕ)
    (hdec : (statuses n).triggered = true ∨ (statuses n).running = false)
    (hmin : ∀ m, m < n → (statuses m).running = true ∧
      (statuses m).triggered = false) :
    ∀ fuel, n < fuel → wait_for_trigger statuses fuel 0 = some n := by
  intro fuel hfuel
  have h := wait_for_trigger_stops_at statuses n 0 fuel hfuel
  simp only [Nat.zero_add] at h
  exact h hdec hmin

/-- Witness for C3: a status stream that is `running = true` throughout and
first reports `triggered = true` at poll 2; `wait_for_trigger` returns at
poll 2 even though `running` is still `true` there. -/
theorem wait_for_trigger_returns_on_trigger_witness :
    wait_for_trigger (fun m => ⟨true, decide (m = 2)⟩) 5 0 = some 2 :=
  wait_for_trigger_returns_on_trigger (fun m => ⟨true, decide (m = 2)⟩) 2
    (Or.inl (by decide))
    (fun m hm => by constructor <;> revert hm <;> revert m <;> decide)
    5 (by decide)

/-- C8: `wait_for_trigger` enforces no timeout: on a stream whose every
snapshot has `running = true` and `triggered = false`, no amount of fuel makes
it return — the loop polls forever. -/
theorem wait_for_trigger_no_timeout (statuses : ℕ → ScanStatus)
    (h : ∀ m, (statuses m).running = true ∧ (statuses m).triggered = false) :
    ∀ fuel k, wait_for_trigger statuses fuel k = none :=
  wait_for_trigger_no_stop statuses h

/-- Witness for C8: on the constant `running, untriggered` stream the wait
returns `none` at a concrete fuel. -/
theorem wait_for_trigger_no_timeout_witness :
    wait_for_trigger (fun _ => ⟨true, false⟩) 7 0 = none :=
  wait_for_trigger_no_timeout (fun _ => ⟨true, false⟩)
    (fun _ => ⟨rfl, rfl⟩) 7 0

/-- C1: on a read whose result has `hardware_overrun` set, or
`buffer_overrun` set with `hardware_overrun` clear, the loop prints the
corresponding overrun message and stops at once: the remaining trace of the run is
exactly that one read call and the message — no further read, no counters
line (so nothing is added to the running total, which is returned unchanged),
and no sample group (so `data` is never indexed). -/
theorem read_loop_stops_on_overrun (hat : ℕ → ℕ → ℚ → ReadResult)
    (spc num fuel k total : ℕ) (h : total < spc) :
    ((hat k 500 5).hardware_overrun = true →
      read_and_display_data hat spc num (fuel + 1) k total =
        (Outcome.hardwareOverrun, total,
          [Event.readCall 500 5, Event.overrunMsg true])) ∧
    ((hat k 500 5).hardware_overrun = false →
      (hat k 500 5).buffer_overrun = true →
      read_and_display_data hat spc num (fuel + 1) k total =
        (Outcome.bufferOverrun, total,
          [Event.readCall 500 5, Event.overrunMsg false])) := by
  constructor
  · intro hhw
    rw [read_and_display_data, if_neg (Nat.not_le.mpr h)]
    simp [hhw]
  · intro hhw hbo
    rw [read_and_display_data, if_neg (Nat.not_le.mpr h)]
    simp [hhw, hbo]

/-- Witness for C1: concrete devices whose first read reports a hardware
(resp. buffer) overrun; the loop halts with just the message. -/
theorem read_loop_stops_on_overrun_witness :
    read_and_display_data (fun _ _ _ => ⟨[], true, false⟩) 1 1 1 0 0 =
      (Outcome.hardwareOverrun, 0,
        [Event.readCall 500 5, Event.overrunMsg true]) ∧
    read_and_display_data (fun _ _ _ => ⟨[], false, true⟩) 1 1 1 0 0 =
      (Outcome.bufferOverrun, 0,
        [Event.readCall 500 5, Event.overrunMsg false]) :=
  ⟨(read_loop_stops_on_overrun (fun _ _ _ => ⟨[], true, false⟩) 1 1 0 0 0
      (by decide)).1 rfl,
    (read_loop_stops_on_overrun (fun _ _ _ => ⟨[], false, true⟩) 1 1 0 0 0
      (by decide)).2 rfl rfl⟩

/-- C2: with no overruns, the loop (i) performs no further read once the
running total has reached `samples_per_channel` (it exits at once with an
empty trace), (ii) exits normally after exactly `n` reads, where `n` is the
first block count whose cumulative per-channel sample sum reaches the target
— so at most one block is read beyond the one that crosses it, and (iii) a
normal exit only ever happens with the target reached. -/
theorem read_loop_terminates_at_target (hat : ℕ → ℕ → ℚ → ReadResult)
    (spc num n : ℕ)
    (hno : ∀ j, (hat j 500 5).hardware_overrun = false ∧
      (hat j 500 5).buffer_overrun = false)
    (hcross : spc ≤ sumSamples hat num 0 n)
    (hmin : ∀ m, m < n → sumSamples hat num 0 m < spc) :
    (∀ fuel k total, spc ≤ total →
      read_and_display_data hat spc num fuel k total =
        (Outcome.normal, total, [])) ∧
    (∀ fuel, n ≤ fuel →
      (read_and_display_data hat spc num fuel 0 0).1 = Outcome.normal ∧
      (read_and_display_data hat spc num fuel 0 0).2.1 =
        sumSamples hat num 0 n ∧
      readCount (read_and_display_data hat spc num fuel 0 0).2.2 = n) ∧
    (∀ fuel k total,
      (read_and_display_data hat spc num fuel k total).1 = Outcome.normal →
      spc ≤ (read_and_display_data hat spc num fuel k total).2.1) := by
  refine ⟨fun fuel k total h => read_loop_done hat spc num fuel k total h,
    fun fuel hfuel => ?_, read_loop_normal_reaches hat spc num⟩
  have h := read_loop_normal_run hat spc num hno n 0 0 fuel hfuel
    (fun m hm => by simpa using hmin m hm) (by simpa using hcross)
  exact ⟨h.1, by simpa using h.2.1, h.2.2.1⟩

/-- Witness for C2: a device delivering one sample per channel per block with
target 2; the loop exits normally after exactly 2 reads with total 2. -/
theorem read_loop_terminates_at_target_witness :
    (read_and_display_data (fun _ _ _ => ⟨[0], false, false⟩) 2 1 5 0 0).1 =
      Outcome.normal ∧
    (read_and_display_data (fun _ _ _ => ⟨[0], false, false⟩) 2 1 5 0 0).2.1 =
      sumSamples (fun _ _ _ => ⟨[0], false, false⟩) 1 0 2 ∧
    readCount
      (read_and_display_data (fun _ _ _ => ⟨[0], false, false⟩) 2 1 5 0 0).2.2 =
      2 :=
  (read_loop_terminates_at_target (fun _ _ _ => ⟨[0], false, false⟩) 2 1 2
    (fun _ => ⟨rfl, rfl⟩) (by decide) (by decide)).2.1 5 (by decide)

/-- C4: the quantity `samples_read_per_channel` in the loop is the floor of
`len(data) / num_channels`, and when `num_channels` divides `len(data)` (the
complete-sample-groups device invariant) it is the exact quotient:
multiplying back by `num_channels` recovers `len(data)`. -/
theorem samples_read_per_channel_floor (read_result : ReadResult)
    (num_channels : ℕ) (_hnum : 0 < num_channels) :
    samples_read_per_channel read_result num_channels =
      read_result.data.length / num_channels ∧
    (num_channels ∣ read_result.data.length →
      samples_read_per_channel read_result num_channels * num_channels =
        read_result.data.length) :=
  ⟨rfl, fun hdvd => Nat.div_mul_cancel hdvd⟩

/-- Witness for C4: 8 samples over 4 channels give exactly 2 per channel. -/
theorem samples_read_per_channel_floor_witness :
    samples_read_per_channel ⟨List.replicate 8 0, false, false⟩ 4 =
      (List.replicate 8 (0 : Float)).length / 4 ∧
    samples_read_per_channel ⟨List.replicate 8 0, false, false⟩ 4 * 4 =
      (List.replicate 8 (0 : Float)).length :=
  have h := samples_read_per_channel_floor ⟨List.replicate 8 0, false, false⟩ 4
    (by decide)
  ⟨h.1, h.2 (by decide)⟩

/-- C5: on a non-overrun result with 4 channels and 2000 samples in `data`,
the loop computes `samples_read_per_channel = 500` and the displayed group is
exactly the last interleaved group `data[1996], data[1997], data[1998],
data[1999]`. -/
theorem displayed_group_of_2000 (read_result : ReadResult)
    (_hhw : read_result.hardware_overrun = false)
    (_hbo : read_result.buffer_overrun = false)
    (hlen : read_result.data.length = 2000) :
    samples_read_per_channel read_result 4 = 500 ∧
    displayed_group read_result 4 =
      [read_result.data.getD 1996 0, read_result.data.getD 1997 0,
        read_result.data.getD 1998 0, read_result.data.getD 1999 0] := by
  have hs : samples_read_per_channel read_result 4 = 500 := by
    simp [samples_read_per_channel, hlen]
  refine ⟨hs, ?_⟩
  have hrange : List.range 4 = [0, 1, 2, 3] := by decide
  simp only [displayed_group, hs, hrange, List.map_cons, List.map_nil]

/-- Witness for C5: a concrete 2000-sample result. -/
theorem displayed_group_of_2000_witness :
    samples_read_per_channel ⟨List.replicate 2000 0, false, false⟩ 4 = 500 ∧
    displayed_group ⟨List.replicate 2000 0, false, false⟩ 4 =
      [(List.replicate 2000 (0 : Float)).getD 1996 0,
        (List.replicate 2000 0).getD 1997 0,
        (List.replicate 2000 0).getD 1998 0,
        (List.replicate 2000 0).getD 1999 0] :=
  displayed_group_of_2000 ⟨List.replicate 2000 0, false, false⟩ rfl rfl
    (List.length_replicate 2000 0)

/-- C9: whenever the display guard of the loop holds
(`samples_read_per_channel > 0`, with at least one channel), every index it
reads — `index + i` for `i < num_channels`, with
`index = samples_read_per_channel * num_channels - num_channels` — is within
bounds of `data`, even when `len(data)` is not a multiple of `num_channels`. -/
theorem displayed_index_in_bounds (read_result : ReadResult)
    (num_channels : ℕ) (_hnum : 0 < num_channels)
    (hs : 0 < samples_read_per_channel read_result num_channels) :
    ∀ i, i < num_channels →
      samples_read_per_channel read_result num_channels * num_channels -
        num_channels + i < read_result.data.length := by
  intro i hi
  have h1 : num_channels ≤
      samples_read_per_channel read_result num_channels * num_channels :=
    Nat.le_mul_of_pos_left num_channels hs
  have h2 : samples_read_per_channel read_result num_channels * num_channels ≤
      read_result.data.length :=
    Nat.div_mul_le_self read_result.data.length num_channels
  generalize samples_read_per_channel read_result num_channels * num_channels
    = t at h1 h2 ⊢
  omega

/-- Witness for C9: 5 samples over 4 channels (an incomplete final group):
the last displayed index `1 * 4 - 4 + 3 = 3` is still within the 5-element
`data`. -/
theorem displayed_index_in_bounds_witness :
    samples_read_per_channel ⟨List.replicate 5 0, false, false⟩ 4 * 4 - 4 + 3 <
      (List.replicate 5 (0 : Float)).length :=
  displayed_index_in_bounds ⟨List.replicate 5 0, false, false⟩ 4 (by decide)
    (by decide) 3 (by decide)

/-- The device of the scenario in the spec: every read returns 2000 interleaved
samples (500 per channel over 4 channels) and no overrun. -/
def scenarioHat : ℕ → ℕ → ℚ → ReadResult :=
  fun _ _ _ => ⟨List.replicate 2000 0, false, false⟩

lemma scenarioHat_blockSamples (j : ℕ) : blockSamples scenarioHat 4 j = 500 := by
  show (List.replicate 2000 (0 : Float)).length / 4 = 500
  rw [List.length_replicate]

/-- C6: with target 1000 per channel over 4 channels and every read returning
a non-overrun block of 2000 samples, the loop performs exactly two reads,
prints one counters line per read, and exits normally with running total
1000. -/
theorem read_loop_scenario_two_blocks :
    (read_and_display_data scenarioHat 1000 4 10 0 0).1 = Outcome.normal ∧
    (read_and_display_data scenarioHat 1000 4 10 0 0).2.1 = 1000 ∧
    readCount (read_and_display_data scenarioHat 1000 4 10 0 0).2.2 = 2 ∧
    displayCount (read_and_display_data scenarioHat 1000 4 10 0 0).2.2 = 2 := by
  have hsum : ∀ k n, sumSamples scenarioHat 4 k n = 500 * n := by
    intro k n
    induction n generalizing k with
    | zero => simp [sumSamples]
    | succ n ih =>
      rw [sumSamples, scenarioHat_blockSamples, ih (k + 1)]
      ring
  have h := read_loop_normal_run scenarioHat 1000 4 (fun _ => ⟨rfl, rfl⟩)
    2 0 0 10 (by omega)
    (fun m hm => by
      interval_cases m <;> simp [hsum])
    (by simp [hsum])
  exact ⟨h.1, by simpa [hsum] using h.2.1, h.2.2.1, h.2.2.2⟩

/-- C7: every `hat.a_in_scan_read` call the loop ever issues passes the fixed
request size 500 and the fixed timeout 5.0, on every iteration, whatever the
device returns and however many samples remain until the target. -/
theorem read_calls_fixed_size_and_timeout (hat : ℕ → ℕ → ℚ → ReadResult)
    (spc num : ℕ) :
    ∀ fuel k total request_size timeout_arg,
      Event.readCall request_size timeout_arg ∈
        (read_and_display_data hat spc num fuel k total).2.2 →
      request_size = 500 ∧ timeout_arg = 5 := by
  intro fuel
  induction fuel with
  | zero =>
    intro k total rs t hmem
    by_cases h : spc ≤ total <;> simp [read_and_display_data, h] at hmem
  | succ fuel ih =>
    intro k total rs t hmem
    by_cases h : spc ≤ total
    · simp [read_and_display_data, h] at hmem
    · by_cases hhw : (hat k 500 5).hardware_overrun = true
      · rw [read_and_display_data, if_neg h] at hmem
        simp [hhw] at hmem
        exact hmem
      · have hhw' : (hat k 500 5).hardware_overrun = false := by
          simpa using hhw
        by_cases hbo : (hat k 500 5).buffer_overrun = true
        · rw [read_and_display_data, if_neg h] at hmem
          simp [hhw', hbo] at hmem
          exact hmem
        · have hbo' : (hat k 500 5).buffer_overrun = false := by
            simpa using hbo
          rw [read_loop_step hat spc num fuel k total (Nat.not_le.mp h)
            hhw' hbo'] at hmem
          simp only [List.mem_append] at hmem
          rcases hmem with hmem | hmem
          · by_cases hs : 0 < blockSamples hat num k <;>
              simp [stepEvents, hs] at hmem <;> exact hmem
          · exact ih (k + 1) _ rs t hmem

/-- Witness for C7: in a concrete run the trace contains a read call, and it
carries request size 500 and timeout 5. -/
theorem read_calls_fixed_size_and_timeout_witness :
    Event.readCall 500 5 ∈
      (read_and_display_data (fun _ _ _ => ⟨[], true, false⟩) 1 1 1 0 0).2.2 ∧
    ((500 : ℕ) = 500 ∧ (5 : ℚ) = 5) :=
  have hmem : Event.readCall 500 5 ∈
      (read_and_display_data (fun _ _ _ => ⟨[], true, false⟩) 1 1 1 0 0).2.2 :=
    List.Mem.head _
  ⟨hmem, read_calls_fixed_size_and_timeout (fun _ _ _ => ⟨[], true, false⟩)
    1 1 1 0 0 500 5 hmem⟩

/-- C10: the loop has no progress guarantee of its own: if every read comes
back non-overrun with fewer samples than there are channels (e.g. empty data
on a timed-out read), the running total never increases and no amount of fuel
lets the loop terminate. -/
theorem read_loop_no_progress (hat : ℕ → ℕ → ℚ → ReadResult) (spc num : ℕ)
    (hsmall : ∀ j, (hat j 500 5).hardware_overrun = false ∧
      (hat j 500 5).buffer_overrun = false ∧
      (hat j 500 5).data.length < num) :
    ∀ fuel k total, total < spc →
      (read_and_display_data hat spc num fuel k total).1 =
        Outcome.fuelExhausted ∧
      (read_and_display_data hat spc num fuel k total).2.1 = total := by
  intro fuel
  induction fuel with
  | zero =>
    intro k total h
    simp [read_and_display_data, Nat.not_le.mpr h]
  | succ fuel ih =>
    intro k total h
    have hz : blockSamples hat num k = 0 := by
      unfold blockSamples samples_read_per_channel
      exact Nat.div_eq_of_lt (hsmall k).2.2
    rw [read_loop_step hat spc num fuel k total h (hsmall k).1 (hsmall k).2.1,
      hz, Nat.add_zero]
    exact ⟨(ih (k + 1) total h).1, (ih (k + 1) total h).2⟩

/-- Witness for C10: a device always returning empty data; with fuel 3 the
loop is still running and the total is still 0. -/
theorem read_loop_no_progress_witness :
    (read_and_display_data (fun _ _ _ => ⟨[], false, false⟩) 1 1 3 0 0).1 =
      Outcome.fuelExhausted ∧
    (read_and_display_data (fun _ _ _ => ⟨[], false, false⟩) 1 1 3 0 0).2.1 =
      0 :=
  read_loop_no_progress (fun _ _ _ => ⟨[], false, false⟩) 1 1
    (fun _ => ⟨rfl, rfl, Nat.zero_lt_one⟩) 3 0 0 (by decide)

end FiniteScanWithTrigger
